import Mathlib

/-!
Shallow embedding of the CRDP multiplexor
(src/chrome/crdpMultiplexing/crdpMultiplexor.ts).

Wire messages are modelled structurally (a parsed JSON envelope): an
optional numeric id, an optional method string, and an opaque remainder.
Listener callbacks are modelled by numeric identities; a delivery of a
payload to a callback is recorded in a ghost `delivered` log.  The one-shot
discard timer is modelled by a ghost counter `timersArmed` counting how many
times a timer was scheduled, plus the explicit `discardUnsentPendingMessages`
transition for the timer firing.  Exceptions thrown by the TypeScript code
are modelled with `Except`; for `CRDPChannel.send`, which can mutate the heap
before throwing, the result type `SendResult` keeps the post-throw state.
-/

deriving instance DecidableEq for Except

/-- Parsed JSON message envelope: optional id, optional method, opaque rest. -/
structure Message where
  id : Option Nat
  method : Option String
  params : String
deriving DecidableEq

/-- Errors raised by the multiplexor code: `criticalError` models
`throwCriticalError`, `typeError` models a JavaScript TypeError (property
access on null), `capacityError` models the plain Error thrown by
`addChannel`. -/
inductive MuxError where
  | criticalError (msg : String)
  | typeError (msg : String)
  | capacityError (msg : String)
deriving DecidableEq

/-- Model of the JavaScript expression `s.split(".")`. -/
def jsSplitOnDot (s : String) : List String :=
  (List.splitOn '.' s.data).map String.mk

/-- Model of the JavaScript expression `s.endsWith(suffix)`. -/
def jsEndsWith (s suffix : String) : Bool :=
  List.isSuffixOf suffix.data s.data

/-- Model of `Array.prototype.indexOf`: first index or -1. -/
def jsIndexOf (l : List Nat) (x : Nat) : Int :=
  match l.findIdx? (fun y => y == x) with
  | some i => (i : Int)
  | none => -1

/-- Model of `Array.prototype.splice(start, 1)`: a negative start counts
from the end (clamped at 0), a too-large start removes nothing. -/
def jsSpliceRemoveOne (l : List Nat) (start : Int) : List Nat :=
  let actualStart : Nat :=
    if start < 0 then ((l.length : Int) + start).toNat else min start.toNat l.length
  l.take actualStart ++ l.drop (actualStart + 1)

def encodifyChannel (channelId : Nat) (id : Nat) : Nat :=
  id * 10 + channelId

def decodifyChannelId (encodifiedId : Nat) : Nat :=
  encodifiedId % 10

def decodifyId (encodifiedId : Nat) : Nat :=
  encodifiedId / 10

/-- Function `extractDomain` from the source: split the method on dots; exactly two
parts means the first part is the domain, anything else is a critical
error. -/
def extractDomain (method : String) : Except MuxError String :=
  let methodParts := jsSplitOnDot method
  if methodParts.length = 2 then Except.ok methodParts.headI
  else Except.error (MuxError.criticalError "The method did not have exactly two parts")

/-- Lookup in a JavaScript object used as a string-keyed map. -/
def assocLookup (m : List (String × List Message)) (d : String) : Option (List Message) :=
  match m with
  | [] => none
  | p :: rest => if p.1 == d then some p.2 else assocLookup rest d

/-- Key assignment in a JavaScript object used as a string-keyed map. -/
def assocSet (m : List (String × List Message)) (d : String) (v : List Message) :
    List (String × List Message) :=
  match m with
  | [] => [(d, v)]
  | p :: rest => if p.1 == d then (d, v) :: rest else p :: assocSet rest d v

/-- The `delete` operator on a JavaScript object used as a map. -/
def assocErase (m : List (String × List Message)) (d : String) :
    List (String × List Message) :=
  match m with
  | [] => []
  | p :: rest => if p.1 == d then rest else p :: assocErase rest d

/-- State of one `CRDPChannel`, with the ghost fields `delivered` (every
(callback, payload) invocation made so far) and `timersArmed` (number of
discard timers scheduled so far). -/
structure CRDPChannel where
  name : String
  id : Nat
  messageCallbacks : List Nat
  enabledDomains : List String
  pendingMessagesForDomain : Option (List (String × List Message))
  delivered : List (Nat × Message)
  timersArmed : Nat
deriving DecidableEq

/-- One fan-out of a payload: each currently registered callback is invoked
once with it. -/
def deliverTo (c : CRDPChannel) (msg : Message) : List (Nat × Message) :=
  c.messageCallbacks.map (fun cb => (cb, msg))

/-- Method `CRDPChannel.callMessageCallbacks`: invoke every registered callback. -/
def CRDPChannel.callMessageCallbacks (c : CRDPChannel) (messageData : Message) : CRDPChannel :=
  { c with delivered := c.delivered ++ deliverTo c messageData }

/-- Method `CRDPChannel.storeMessageForLater`, on the non-null pending map: append
to the domain queue, creating it first when absent. -/
def storeMessageForLater (pending : List (String × List Message)) (domain : String)
    (messageData : Message) : List (String × List Message) :=
  let messagesForDomain := (assocLookup pending domain).getD []
  assocSet pending domain (messagesForDomain ++ [messageData])

/-- Method `CRDPChannel.callDomainMessageCallbacks`: deliver when the domain is
enabled, buffer while the pending map is not null, silently drop after the
map was nulled out by the discard timer. -/
def CRDPChannel.callDomainMessageCallbacks (c : CRDPChannel) (domain : String)
    (messageData : Message) : CRDPChannel :=
  if c.enabledDomains.contains domain then
    c.callMessageCallbacks messageData
  else
    match c.pendingMessagesForDomain with
    | some pending =>
        { c with pendingMessagesForDomain := some (storeMessageForLater pending domain messageData) }
    | none => c

/-- The assignment `enabledDomains[domain] = true` (set semantics). -/
def enableDomain (domains : List String) (domain : String) : List String :=
  if domains.contains domain then domains else domain :: domains

/-- Method `CRDPMultiplexor.send`: requires an id, rewrites it with the channel id,
and hands the message to the socket (the caller records the write). -/
def multiplexorSend (channelId : Nat) (msg : Message) : Except MuxError Message :=
  match msg.id with
  | some n => Except.ok { msg with id := some (encodifyChannel channelId n) }
  | none => Except.error (MuxError.criticalError "Channel sent a message without an id")

/-- Method `CRDPChannel.sendUnsentPendingMessages`.  Note the source reads
`this._pendingMessagesForDomain[domain]` without a null check, so a
discarded buffer raises a TypeError here. -/
def CRDPChannel.sendUnsentPendingMessages (c : CRDPChannel) (domain : String) :
    Except MuxError CRDPChannel :=
  match c.pendingMessagesForDomain with
  | none => Except.error (MuxError.typeError "Cannot read property of null")
  | some pending =>
    match assocLookup pending domain with
    | none => Except.ok c
    | some pendingMessagesData =>
      if c.messageCallbacks.length = 0 then Except.ok c
      else
        Except.ok (pendingMessagesData.foldl
          (fun ch d => ch.callDomainMessageCallbacks domain d)
          { c with pendingMessagesForDomain := some (assocErase pending domain) })

/-- Result of `CRDPChannel.send`: the channel state after the call (also
after a throw, since heap mutations made before the throw persist), the
messages written to the socket, and the raised exception when there was
one. -/
structure SendResult where
  channel : CRDPChannel
  wire : List Message
  error : Option MuxError
deriving DecidableEq

/-- Method `CRDPChannel.send`: an `.enable` method marks its domain enabled before
forwarding, then forwarding happens through the multiplexor, then the
pending queue of the enabled domain is flushed. -/
def CRDPChannel.send (c : CRDPChannel) (messageData : Message) : SendResult :=
  match messageData.method with
  | none =>
    match multiplexorSend c.id messageData with
    | Except.error e => { channel := c, wire := [], error := some e }
    | Except.ok encoded => { channel := c, wire := [encoded], error := none }
  | some method =>
    if jsEndsWith method ".enable" then
      match extractDomain method with
      | Except.error e => { channel := c, wire := [], error := some e }
      | Except.ok domain =>
        let c1 := { c with enabledDomains := enableDomain c.enabledDomains domain }
        match multiplexorSend c1.id messageData with
        | Except.error e => { channel := c1, wire := [], error := some e }
        | Except.ok encoded =>
          match c1.sendUnsentPendingMessages domain with
          | Except.error e => { channel := c1, wire := [encoded], error := some e }
          | Except.ok c2 => { channel := c2, wire := [encoded], error := none }
    else
      match multiplexorSend c.id messageData with
      | Except.error e => { channel := c, wire := [], error := some e }
      | Except.ok encoded => { channel := c, wire := [encoded], error := none }

/-- Method `CRDPChannel.on` for the event "message": scheduling of the discard
timer happens exactly when the callback list is currently empty, then the
callback is pushed. -/
def CRDPChannel.onMessageListener (c : CRDPChannel) (cb : Nat) : CRDPChannel :=
  if c.messageCallbacks.length = 0 then
    { c with timersArmed := c.timersArmed + 1, messageCallbacks := c.messageCallbacks ++ [cb] }
  else
    { c with messageCallbacks := c.messageCallbacks ++ [cb] }

/-- Method `CRDPChannel.removeListener` for the event "message":
`splice(indexOf(cb), 1)`. -/
def CRDPChannel.removeMessageListener (c : CRDPChannel) (cb : Nat) : CRDPChannel :=
  { c with messageCallbacks := jsSpliceRemoveOne c.messageCallbacks (jsIndexOf c.messageCallbacks cb) }

/-- The discard timer firing: `this._pendingMessagesForDomain = null`. -/
def CRDPChannel.discardUnsentPendingMessages (c : CRDPChannel) : CRDPChannel :=
  { c with pendingMessagesForDomain := none }

/-- The `CRDPChannel` constructor. -/
def newChannel (channelName : String) (channelId : Nat) : CRDPChannel :=
  { name := channelName, id := channelId, messageCallbacks := [], enabledDomains := [],
    pendingMessagesForDomain := some [], delivered := [], timersArmed := 0 }

/-- State of the `CRDPMultiplexor`: the ordered channel registry. -/
structure CRDPMultiplexor where
  channels : List CRDPChannel
deriving DecidableEq

/-- Multiplexor state right after the constructor ran. -/
def initMux : CRDPMultiplexor := { channels := [] }

/-- Method `CRDPMultiplexor.addChannel`. -/
def CRDPMultiplexor.addChannel (m : CRDPMultiplexor) (channelName : String) :
    Except MuxError CRDPMultiplexor :=
  if m.channels.length ≥ 10 then
    Except.error (MuxError.capacityError "Only 10 channels are supported")
  else
    Except.ok { m with channels := m.channels ++ [newChannel channelName m.channels.length] }

/-- Method `CRDPMultiplexor.onResponseMessage`: route by the decoded channel id,
restore the original id, deliver to that channel only. -/
def CRDPMultiplexor.onResponseMessage (m : CRDPMultiplexor) (message : Message)
    (messageId : Nat) : Except MuxError CRDPMultiplexor :=
  match m.channels[decodifyChannelId messageId]? with
  | some channel =>
    let updated := channel.callMessageCallbacks { message with id := some (decodifyId messageId) }
    Except.ok { m with channels := m.channels.set (decodifyChannelId messageId) updated }
  | none => Except.error (MuxError.criticalError "Did not find channel for message")

/-- Method `CRDPMultiplexor.onDomainNotification`: extract the domain, then let
every channel filter the payload itself. -/
def CRDPMultiplexor.onDomainNotification (m : CRDPMultiplexor) (method : String)
    (message : Message) : Except MuxError CRDPMultiplexor :=
  match extractDomain method with
  | Except.error e => Except.error e
  | Except.ok domain =>
    let updated := m.channels.map (fun channel => channel.callDomainMessageCallbacks domain message)
    Except.ok { m with channels := updated }

/-- Method `CRDPMultiplexor.onMessage`: id means response, truthy method means
notification, otherwise a critical error. -/
def CRDPMultiplexor.onMessage (m : CRDPMultiplexor) (message : Message) :
    Except MuxError CRDPMultiplexor :=
  match message.id with
  | some messageId => m.onResponseMessage message messageId
  | none =>
    match message.method with
    | some method =>
      if method == "" then Except.error (MuxError.criticalError "Message did not have id nor method")
      else m.onDomainNotification method message
    | none => Except.error (MuxError.criticalError "Message did not have id nor method")

/-- Any sequence of `addChannel` calls from a given state; a failed call
leaves the state unchanged (the raised error is observed by the caller). -/
def runAddChannels (m : CRDPMultiplexor) (names : List String) : CRDPMultiplexor :=
  match names with
  | [] => m
  | channelName :: rest =>
    match m.addChannel channelName with
    | Except.ok m2 => runAddChannels m2 rest
    | Except.error _ => runAddChannels m rest

/-- Listener-registry events of one channel. -/
inductive ChannelEvent where
  | register (cb : Nat)
  | remove (cb : Nat)
deriving DecidableEq

def applyChannelEvent (c : CRDPChannel) : ChannelEvent → CRDPChannel
  | ChannelEvent.register cb => c.onMessageListener cb
  | ChannelEvent.remove cb => c.removeMessageListener cb

def runChannelEvents (c : CRDPChannel) : List ChannelEvent → CRDPChannel
  | [] => c
  | e :: es => runChannelEvents (applyChannelEvent c e) es

/-- How many registrations of a trace happen at a moment where the
callback list (starting from `l`) is empty. -/
def armingCount (l : List Nat) : List ChannelEvent → Nat
  | [] => 0
  | ChannelEvent.register cb :: es => (if l.length = 0 then 1 else 0) + armingCount (l ++ [cb]) es
  | ChannelEvent.remove cb :: es => armingCount (jsSpliceRemoveOne l (jsIndexOf l cb)) es

/-- The registry invariant claimed by the spec: at most 10 channels and the
channel at index j carries id j. -/
def channelIdsDense (m : CRDPMultiplexor) : Prop :=
  m.channels.length ≤ 10 ∧ ∀ j, j < m.channels.length → (m.channels[j]?).map CRDPChannel.id = some j

/-! Helper lemmas. -/

theorem findIdx_beq_none_of_not_mem (l : List Nat) (x : Nat) (h : x ∉ l) :
    l.findIdx? (fun y => y == x) = none := by
  induction l with
  | nil => rfl
  | cons a as ih =>
    simp only [List.mem_cons, not_or] at h
    rw [List.findIdx?_cons]
    have ha : (a == x) = false := by simp [Ne.symm h.1]
    simp [ha, ih h.2]

theorem jsIndexOf_eq_neg_one (l : List Nat) (x : Nat) (h : x ∉ l) :
    jsIndexOf l x = -1 := by
  unfold jsIndexOf
  rw [findIdx_beq_none_of_not_mem l x h]

theorem jsSpliceRemoveOne_neg_one (l : List Nat) (h : l ≠ []) :
    jsSpliceRemoveOne l (-1) = l.dropLast := by
  unfold jsSpliceRemoveOne
  have hl : 0 < l.length := List.length_pos.mpr h
  have h1 : (((l.length : Int)) + (-1)).toNat = l.length - 1 := by omega
  have h2 : l.length - 1 + 1 = l.length := by omega
  simp only [if_pos (by omega : (-1 : Int) < 0), h1, h2, List.drop_length, List.append_nil]
  rw [List.dropLast_eq_take]

theorem extractDomain_cases (method : String) :
    (∃ d, extractDomain method = Except.ok d) ∨
    extractDomain method
      = Except.error (MuxError.criticalError "The method did not have exactly two parts") := by
  unfold extractDomain
  by_cases h : (jsSplitOnDot method).length = 2 <;> simp [h]

/-! Claim theorems. -/

/-- Claim C1: for every channel id c in [0,9] and every request id n, the
encoded id n*10+c decodes back to both parts. -/
theorem encodify_decodify_roundtrip (c n : Nat) (hc : c ≤ 9) :
    decodifyChannelId (encodifyChannel c n) = c ∧ decodifyId (encodifyChannel c n) = n := by
  unfold decodifyChannelId decodifyId encodifyChannel
  omega

theorem encodify_decodify_roundtrip_witness :
    decodifyChannelId (encodifyChannel 3 7) = 3 ∧ decodifyId (encodifyChannel 3 7) = 7 :=
  encodify_decodify_roundtrip 3 7 (by decide)

/-- Channel whose pending buffer was already discarded by the timer. -/
def chDiscardedC5 : CRDPChannel :=
  { name := "client", id := 3, messageCallbacks := [7], enabledDomains := [],
    pendingMessagesForDomain := none, delivered := [], timersArmed := 1 }

def enableMsgC5 : Message := { id := some 1, method := some "Debugger.enable", params := "" }

/-- Claim C5 fails on the code: a channel whose pending buffer was discarded
and that sends an enable message with an id does forward the message, but
then the flush step reads a property of the null pending map and raises a
TypeError instead of being a no-op. -/
theorem send_after_discard_raises :
    (chDiscardedC5.send enableMsgC5).error
        = some (MuxError.typeError "Cannot read property of null") ∧
    (chDiscardedC5.send enableMsgC5).wire
        = [{ id := some 13, method := some "Debugger.enable", params := "" }] := by
  decide

/-- Claim C6 counterexample: registering a listener, removing it, and then
registering another listener arms a second discard timer, because the code
re-arms whenever the callback list is empty at registration time. -/
theorem timer_rearmed_after_removal :
    (runChannelEvents (newChannel "client" 0)
      [ChannelEvent.register 1, ChannelEvent.remove 1, ChannelEvent.register 2]).timersArmed
      = 2 := by
  decide

/-- Claim C6 (amended): over any trace of listener registrations and
removals, the number of discard timers armed equals the number of
registrations that happen while the callback list is currently empty; in
particular the first registration arms one, and a registration after all
listeners were removed arms another. -/
theorem timers_armed_iff_registered_on_empty (c : CRDPChannel) (es : List ChannelEvent) :
    (runChannelEvents c es).timersArmed = c.timersArmed + armingCount c.messageCallbacks es := by
  induction es generalizing c with
  | nil => rfl
  | cons e es ih =>
    cases e with
    | register cb =>
      rw [runChannelEvents, armingCount, ih]
      unfold applyChannelEvent CRDPChannel.onMessageListener
      by_cases h : c.messageCallbacks.length = 0
      · simp [h]
        omega
      · simp [h]
    | remove cb =>
      rw [runChannelEvents, armingCount, ih]
      rfl

/-- Claim C7 counterexample: a channel that sends an enable-shaped message
without an id raises a critical error and writes nothing, but the
enabled-domain set has already been mutated when the error is raised. -/
theorem send_without_id_mutates_enabled :
    ((newChannel "client" 0).send { id := none, method := some "Debugger.enable", params := "" }).error
        = some (MuxError.criticalError "Channel sent a message without an id") ∧
    ((newChannel "client" 0).send { id := none, method := some "Debugger.enable", params := "" }).wire
        = [] ∧
    ((newChannel "client" 0).send { id := none, method := some "Debugger.enable", params := "" }).channel.enabledDomains
        = ["Debugger"] := by
  decide

theorem extractDomain_error_shape (method : String) (e : MuxError)
    (h : extractDomain method = Except.error e) :
    e = MuxError.criticalError "The method did not have exactly two parts" := by
  rcases extractDomain_cases method with ⟨d, h2⟩ | h2
  · cases h.symm.trans h2
  · injection h.symm.trans h2

/-- Claim C7 (amended): for every message without an id that a channel
sends, a fatal critical error is raised, nothing is written to the
connection, and the pending buffers, delivered log and listener list are
unchanged; the enabled-domain set is unchanged too unless the message was
enable-shaped with a well-formed method, in which case it gains that
message's domain before the error. -/
theorem send_without_id_amended (c : CRDPChannel) (msg : Message) (hid : msg.id = none) :
    (∃ s, (c.send msg).error = some (MuxError.criticalError s)) ∧
    (c.send msg).wire = [] ∧
    (c.send msg).channel.pendingMessagesForDomain = c.pendingMessagesForDomain ∧
    (c.send msg).channel.delivered = c.delivered ∧
    (c.send msg).channel.messageCallbacks = c.messageCallbacks ∧
    (∀ method dom, msg.method = some method → jsEndsWith method ".enable" = true →
        extractDomain method = Except.ok dom →
        (c.send msg).channel.enabledDomains = enableDomain c.enabledDomains dom) ∧
    ((¬ ∃ method dom, msg.method = some method ∧ jsEndsWith method ".enable" = true ∧
        extractDomain method = Except.ok dom) →
      (c.send msg).channel.enabledDomains = c.enabledDomains) := by
  obtain ⟨i, mth, p⟩ := msg
  have hi : i = none := hid
  subst hi
  unfold CRDPChannel.send
  split
  · next heq =>
    refine ⟨⟨_, rfl⟩, rfl, rfl, rfl, rfl, ?_, ?_⟩
    · intro method dom hmeq _ _
      rw [heq] at hmeq
      cases hmeq
    · intro _
      rfl
  · next m2 heq =>
    simp only [] at heq
    split
    · next htrue =>
      split
      · next e heq2 =>
        have he2 := extractDomain_error_shape _ _ heq2
        subst he2
        refine ⟨⟨_, rfl⟩, rfl, rfl, rfl, rfl, ?_, ?_⟩
        · intro method dom hmeq _ hok
          rw [heq] at hmeq
          injection hmeq with hmeq2
          subst hmeq2
          cases heq2.symm.trans hok
        · intro _
          rfl
      · next domain heq2 =>
        refine ⟨⟨_, rfl⟩, rfl, rfl, rfl, rfl, ?_, ?_⟩
        · intro method dom hmeq _ hok
          rw [heq] at hmeq
          injection hmeq with hmeq2
          subst hmeq2
          injection heq2.symm.trans hok with hdom
          subst hdom
          rfl
        · intro hno
          exact absurd ⟨m2, domain, heq, htrue, heq2⟩ hno
    · next hfalse =>
      refine ⟨⟨_, rfl⟩, rfl, rfl, rfl, rfl, ?_, ?_⟩
      · intro method dom hmeq hends _
        rw [heq] at hmeq
        injection hmeq with hmeq2
        subst hmeq2
        exact absurd hends hfalse
      · intro _
        rfl

theorem send_without_id_amended_witness :
    (∃ s, ((newChannel "client" 0).send { id := none, method := none, params := "x" }).error
        = some (MuxError.criticalError s)) ∧
    ((newChannel "client" 0).send { id := none, method := none, params := "x" }).wire = [] ∧
    ((newChannel "client" 0).send { id := none, method := none, params := "x" }).channel.enabledDomains
        = (newChannel "client" 0).enabledDomains ∧
    ((newChannel "client" 0).send { id := none, method := some "Debugger.enable", params := "" }).channel.enabledDomains
        = enableDomain (newChannel "client" 0).enabledDomains "Debugger" := by
  obtain ⟨hs, hw, _, _, _, _, hunch⟩ :=
    send_without_id_amended (newChannel "client" 0) { id := none, method := none, params := "x" } rfl
  obtain ⟨_, _, _, _, _, hen, _⟩ :=
    send_without_id_amended (newChannel "client" 0)
      { id := none, method := some "Debugger.enable", params := "" } rfl
  refine ⟨hs, hw, ?_, ?_⟩
  · refine hunch ?_
    rintro ⟨method, dom, hmeq, -, -⟩
    cases hmeq
  · exact hen "Debugger.enable" "Debugger" rfl (by decide) (by decide)

/-- Claim C10: when a channel has at least one registered listener, calling
removeListener with a callback that is not in the listener list removes the
most recently registered listener. -/
theorem removeListener_absent_removes_last (c : CRDPChannel) (cb : Nat)
    (habs : cb ∉ c.messageCallbacks) (hne : c.messageCallbacks ≠ []) :
    (c.removeMessageListener cb).messageCallbacks = c.messageCallbacks.dropLast := by
  unfold CRDPChannel.removeMessageListener
  rw [jsIndexOf_eq_neg_one _ _ habs]
  exact jsSpliceRemoveOne_neg_one _ hne

theorem removeListener_absent_removes_last_witness :
    (({ newChannel "w" 0 with messageCallbacks := [1, 2, 3] } : CRDPChannel).removeMessageListener 9).messageCallbacks
      = [1, 2] := by
  have h := removeListener_absent_removes_last
    { newChannel "w" 0 with messageCallbacks := [1, 2, 3] } 9 (by decide) (by decide)
  simpa using h

/-- Claim C2: an inbound message carrying an id is routed by the decoded
channel id: when that channel is registered the message is delivered, with
the original request id restored, to that channel's listeners only, every
other channel staying unchanged; when no such channel is registered a fatal
critical error is raised. -/
theorem response_routed_to_decoded_channel (m : CRDPMultiplexor) (msg : Message) (mid : Nat)
    (hid : msg.id = some mid) :
    (∀ c, m.channels[decodifyChannelId mid]? = some c →
        ∃ m2, m.onMessage msg = Except.ok m2 ∧
          m2.channels[decodifyChannelId mid]?
            = some { c with delivered :=
                c.delivered ++ deliverTo c { msg with id := some (decodifyId mid) } } ∧
          ∀ j, j ≠ decodifyChannelId mid → m2.channels[j]? = m.channels[j]?) ∧
    (m.channels[decodifyChannelId mid]? = none →
        ∃ s, m.onMessage msg = Except.error (MuxError.criticalError s)) := by
  obtain ⟨i, mth, p⟩ := msg
  have hi : i = some mid := hid
  subst hi
  constructor
  · intro c hc
    have hlt : decodifyChannelId mid < m.channels.length := by
      by_contra hge
      rw [List.getElem?_eq_none (Nat.le_of_not_lt hge)] at hc
      cases hc
    refine ⟨{ m with channels := m.channels.set (decodifyChannelId mid) (c.callMessageCallbacks { id := some (decodifyId mid), method := mth, params := p }) }, ?_, ?_, ?_⟩
    · show CRDPMultiplexor.onResponseMessage m ⟨some mid, mth, p⟩ mid = _
      unfold CRDPMultiplexor.onResponseMessage
      rw [hc]
    · rw [List.getElem?_set_self hlt]
      rfl
    · intro j hj
      exact List.getElem?_set_ne (Ne.symm hj)
  · intro hnone
    refine ⟨"Did not find channel for message", ?_⟩
    show CRDPMultiplexor.onResponseMessage m ⟨some mid, mth, p⟩ mid = _
    unfold CRDPMultiplexor.onResponseMessage
    rw [hnone]

/-- Multiplexor with two channels, the second one holding a listener. -/
def muxC2 : CRDPMultiplexor :=
  { channels := [newChannel "a" 0, { newChannel "b" 1 with messageCallbacks := [4] }] }

def respC2 : Message := { id := some 21, method := none, params := "r" }

theorem response_routed_to_decoded_channel_witness :
    (muxC2.onMessage respC2).isOk = true ∧ (initMux.onMessage respC2).isOk = false := by
  constructor
  · obtain ⟨h1, _⟩ := response_routed_to_decoded_channel muxC2 respC2 21 rfl
    obtain ⟨m2, hok, _, _⟩ := h1 { newChannel "b" 1 with messageCallbacks := [4] } (by decide)
    rw [hok]
    rfl
  · obtain ⟨_, h2⟩ := response_routed_to_decoded_channel initMux respC2 21 rfl
    obtain ⟨s, herr⟩ := h2 (by decide)
    rw [herr]
    rfl

theorem channelIdsDense_addChannel (m : CRDPMultiplexor) (nm : String) (m2 : CRDPMultiplexor)
    (hok : m.addChannel nm = Except.ok m2) (h : channelIdsDense m) : channelIdsDense m2 := by
  unfold channelIdsDense at h ⊢
  unfold CRDPMultiplexor.addChannel at hok
  by_cases hlen : m.channels.length ≥ 10
  · rw [if_pos hlen] at hok
    cases hok
  · rw [if_neg hlen] at hok
    injection hok with hok
    subst hok
    constructor
    · simp only [List.length_append, List.length_cons, List.length_nil]
      omega
    · intro j hj
      simp only [List.length_append, List.length_cons, List.length_nil] at hj
      by_cases hjlen : j < m.channels.length
      · rw [List.getElem?_append, if_pos hjlen]
        exact h.2 j hjlen
      · have hj2 : j = m.channels.length := by omega
        subst hj2
        rw [List.getElem?_append_right (le_refl _)]
        simp [newChannel]

theorem runAddChannels_dense (m : CRDPMultiplexor) (names : List String)
    (h : channelIdsDense m) : channelIdsDense (runAddChannels m names) := by
  induction names generalizing m with
  | nil => exact h
  | cons nm rest ih =>
    rw [runAddChannels]
    cases hadd : m.addChannel nm with
    | ok m2 => exact ih m2 (channelIdsDense_addChannel m nm m2 hadd h)
    | error e => exact ih m h

theorem channelIdsDense_init : channelIdsDense initMux := by
  unfold channelIdsDense initMux
  exact ⟨by decide, by intro j hj; cases hj⟩

/-- Claim C8: with 10 channels registered, addChannel raises an error and
no state changes; with fewer it appends a channel whose id is the previous
channel count, the existing channels untouched; and after any sequence of
addChannel calls starting from the initial multiplexor the channel ids are
exactly 0..length-1 in creation order with length at most 10. -/
theorem addChannel_capacity_and_dense (m : CRDPMultiplexor) (nm : String) (names : List String) :
    (m.channels.length = 10 →
        m.addChannel nm = Except.error (MuxError.capacityError "Only 10 channels are supported")) ∧
    (m.channels.length < 10 →
        ∃ m2, m.addChannel nm = Except.ok m2 ∧
          m2.channels.length = m.channels.length + 1 ∧
          (m2.channels[m.channels.length]?).map CRDPChannel.id = some m.channels.length ∧
          ∀ j, j < m.channels.length → m2.channels[j]? = m.channels[j]?) ∧
    channelIdsDense (runAddChannels initMux names) := by
  refine ⟨?_, ?_, runAddChannels_dense initMux names channelIdsDense_init⟩
  · intro h10
    unfold CRDPMultiplexor.addChannel
    rw [if_pos (by omega)]
  · intro hlt
    unfold CRDPMultiplexor.addChannel
    rw [if_neg (by omega)]
    refine ⟨_, rfl, by simp, ?_, ?_⟩
    · rw [List.getElem?_append_right (le_refl _)]
      simp [newChannel]
    · intro j hj
      rw [List.getElem?_append, if_pos hj]

def mux10 : CRDPMultiplexor :=
  runAddChannels initMux ["0", "1", "2", "3", "4", "5", "6", "7", "8", "9"]

theorem addChannel_capacity_and_dense_witness :
    mux10.addChannel "x" = Except.error (MuxError.capacityError "Only 10 channels are supported") ∧
    (initMux.addChannel "a").isOk = true := by
  constructor
  · exact (addChannel_capacity_and_dense mux10 "x" []).1 (by decide)
  · obtain ⟨m2, hok, _⟩ := (addChannel_capacity_and_dense initMux "a" []).2.1 (by decide)
    rw [hok]
    rfl

/-- Multiplexor with one channel that has enabled the domain named Domain
and holds one listener. -/
def muxC9 : CRDPMultiplexor :=
  { channels := [{ newChannel "client" 0 with enabledDomains := ["Domain"], messageCallbacks := [3] }] }

def noteDotMsg : Message := { id := none, method := some "Domain.", params := "p" }

/-- Claim C9 counterexample: the method string consisting of the word
Domain followed by a bare dot has an empty event part, so per the claim it
should raise a fatal error and reach no channel; the code instead accepts
it (split yields two parts), extracts the domain named Domain, and delivers
the payload to the enabled channel's listener. -/
theorem empty_event_part_accepted :
    extractDomain "Domain." = Except.ok "Domain" ∧
    muxC9.onMessage noteDotMsg = Except.ok
      { channels := [{ newChannel "client" 0 with enabledDomains := ["Domain"], messageCallbacks := [3], delivered := [(3, noteDotMsg)] }] } := by
  decide

/-- Claim C9 (amended): a notification method is rejected, with a fatal
critical error and delivery to no channel, exactly when its split on dots
does not have exactly two parts (no dot, or two or more dots); a method
whose split has exactly two parts is accepted even when the domain or
event part is empty, the domain being the part before the dot. -/
theorem malformed_method_amended (m : CRDPMultiplexor) (method : String) (msg : Message) :
    ((jsSplitOnDot method).length ≠ 2 →
        m.onDomainNotification method msg
          = Except.error (MuxError.criticalError "The method did not have exactly two parts")) ∧
    ((jsSplitOnDot method).length = 2 →
        ∃ m2, m.onDomainNotification method msg = Except.ok m2 ∧
          m2.channels.length = m.channels.length) := by
  constructor
  · intro h
    unfold CRDPMultiplexor.onDomainNotification extractDomain
    rw [if_neg h]
  · intro h
    unfold CRDPMultiplexor.onDomainNotification extractDomain
    rw [if_pos h]
    exact ⟨_, rfl, by simp⟩

def noteABCMsg : Message := { id := none, method := some "a.b.c", params := "" }

theorem malformed_method_amended_witness :
    initMux.onDomainNotification "a.b.c" noteABCMsg
      = Except.error (MuxError.criticalError "The method did not have exactly two parts") ∧
    (muxC9.onDomainNotification "Domain." noteDotMsg).isOk = true := by
  constructor
  · exact (malformed_method_amended initMux "a.b.c" noteABCMsg).1 (by decide)
  · obtain ⟨m2, hok, _⟩ := (malformed_method_amended muxC9 "Domain." noteDotMsg).2 (by decide)
    rw [hok]
    rfl

/-! Lemmas about the pending-map operations and delivery. -/

theorem assocLookup_set_self (m : List (String × List Message)) (d : String) (v : List Message) :
    assocLookup (assocSet m d v) d = some v := by
  induction m with
  | nil => simp [assocSet, assocLookup]
  | cons q rest ih =>
    by_cases h : q.1 = d
    · simp [assocSet, assocLookup, h]
    · simp [assocSet, assocLookup, h, ih]

theorem assocLookup_set_ne (m : List (String × List Message)) (d d2 : String) (v : List Message)
    (hne : d2 ≠ d) : assocLookup (assocSet m d v) d2 = assocLookup m d2 := by
  induction m with
  | nil => simp [assocSet, assocLookup, Ne.symm hne]
  | cons q rest ih =>
    by_cases h : q.1 = d
    · simp [assocSet, assocLookup, h, Ne.symm hne]
    · simp [assocSet, assocLookup, h, ih]

theorem assocLookup_eq_none_of_not_mem (m : List (String × List Message)) (d : String)
    (h : d ∉ m.map Prod.fst) : assocLookup m d = none := by
  induction m with
  | nil => rfl
  | cons q rest ih =>
    simp only [List.map_cons, List.mem_cons, not_or] at h
    simp [assocLookup, Ne.symm h.1, ih h.2]

theorem assocLookup_erase_self (m : List (String × List Message)) (d : String)
    (hnd : (m.map Prod.fst).Nodup) : assocLookup (assocErase m d) d = none := by
  induction m with
  | nil => rfl
  | cons q rest ih =>
    simp only [List.map_cons, List.nodup_cons] at hnd
    by_cases h : q.1 = d
    · have : d ∉ rest.map Prod.fst := h ▸ hnd.1
      simp [assocErase, h, assocLookup_eq_none_of_not_mem rest d this]
    · simp [assocErase, assocLookup, h, ih hnd.2]

theorem assocLookup_erase_ne (m : List (String × List Message)) (d d2 : String)
    (hne : d2 ≠ d) : assocLookup (assocErase m d) d2 = assocLookup m d2 := by
  induction m with
  | nil => rfl
  | cons q rest ih =>
    by_cases h : q.1 = d
    · simp [assocErase, assocLookup, h, Ne.symm hne]
    · simp [assocErase, assocLookup, h, ih]

theorem enableDomain_contains (l : List String) (d : String) :
    (enableDomain l d).contains d = true := by
  unfold enableDomain
  by_cases h : l.contains d = true
  · rw [if_pos h]
    exact h
  · rw [if_neg h]
    simp

theorem callDomainMessageCallbacks_enabled (c : CRDPChannel) (domain : String) (msg : Message)
    (h : c.enabledDomains.contains domain = true) :
    c.callDomainMessageCallbacks domain msg
      = { c with delivered := c.delivered ++ deliverTo c msg } := by
  unfold CRDPChannel.callDomainMessageCallbacks
  rw [if_pos h]
  rfl

theorem foldl_deliver_enabled (buf : List Message) (ch : CRDPChannel) (domain : String)
    (h : ch.enabledDomains.contains domain = true) :
    buf.foldl (fun a b => a.callDomainMessageCallbacks domain b) ch
      = { ch with delivered := ch.delivered ++ (buf.map (fun b => deliverTo ch b)).flatten } := by
  induction buf generalizing ch with
  | nil => simp
  | cons b rest ih =>
    rw [List.foldl_cons, callDomainMessageCallbacks_enabled ch domain b h]
    rw [ih { ch with delivered := ch.delivered ++ deliverTo ch b } h]
    simp [deliverTo, List.append_assoc]

/-- Claim C3: a notification with a well-formed two-part method is handed to
every registered channel; a channel that enabled the domain receives the
payload immediately on all its listeners, a channel with a live pending
buffer appends it to that domain's queue without delivering, and a channel
whose buffer was discarded drops it silently, the handler returning without
error in all cases. -/
theorem notification_filtered_per_channel (m : CRDPMultiplexor) (method dom ev : String)
    (msg : Message) (hsplit : jsSplitOnDot method = [dom, ev]) :
    ∃ m2, m.onDomainNotification method msg = Except.ok m2 ∧
      m2.channels.length = m.channels.length ∧
      ∀ (j : Nat) (c : CRDPChannel), m.channels[j]? = some c →
        ∃ c2, m2.channels[j]? = some c2 ∧
          (c.enabledDomains.contains dom = true →
             c2.delivered = c.delivered ++ deliverTo c msg ∧
             c2.pendingMessagesForDomain = c.pendingMessagesForDomain ∧
             c2.messageCallbacks = c.messageCallbacks) ∧
          (c.enabledDomains.contains dom = false →
             (∀ pm, c.pendingMessagesForDomain = some pm →
                c2.delivered = c.delivered ∧
                ∃ pm2, c2.pendingMessagesForDomain = some pm2 ∧
                  assocLookup pm2 dom = some ((assocLookup pm dom).getD [] ++ [msg]) ∧
                  ∀ d2, d2 ≠ dom → assocLookup pm2 d2 = assocLookup pm d2) ∧
             (c.pendingMessagesForDomain = none → c2 = c)) := by
  have hex : extractDomain method = Except.ok dom := by
    unfold extractDomain
    rw [hsplit]
    rfl
  unfold CRDPMultiplexor.onDomainNotification
  rw [hex]
  refine ⟨_, rfl, by simp, ?_⟩
  intro j c hc
  refine ⟨c.callDomainMessageCallbacks dom msg, ?_, ?_, ?_⟩
  · simp [List.getElem?_map, hc]
  · intro hen
    rw [callDomainMessageCallbacks_enabled c dom msg hen]
    exact ⟨rfl, rfl, rfl⟩
  · intro hdis
    have hnen : ¬(c.enabledDomains.contains dom = true) := by
      rw [hdis]
      simp
    constructor
    · intro pm hpm
      unfold CRDPChannel.callDomainMessageCallbacks
      rw [if_neg hnen]
      simp only [hpm]
      refine ⟨by trivial, storeMessageForLater pm dom msg, by trivial, ?_, ?_⟩
      · exact assocLookup_set_self pm dom _
      · intro d2 hd2
        exact assocLookup_set_ne pm dom d2 _ hd2
    · intro hnone
      unfold CRDPChannel.callDomainMessageCallbacks
      rw [if_neg hnen]
      simp only [hnone]

def chEnC3 : CRDPChannel :=
  { newChannel "e" 0 with enabledDomains := ["Debugger"], messageCallbacks := [1] }

def chDisC3 : CRDPChannel :=
  { newChannel "d" 2 with pendingMessagesForDomain := none }

def muxC3 : CRDPMultiplexor :=
  { channels := [chEnC3, newChannel "b" 1, chDisC3] }

def pausedMsg : Message := { id := none, method := some "Debugger.paused", params := "x" }

theorem notification_filtered_per_channel_witness :
    (muxC3.onDomainNotification "Debugger.paused" pausedMsg).isOk = true := by
  obtain ⟨m2, hok, _, _⟩ := notification_filtered_per_channel muxC3 "Debugger.paused"
    "Debugger" "paused" pausedMsg (by decide)
  rw [hok]
  rfl

theorem send_enable_eq (c : CRDPChannel) (method dom : String) (n : Nat) (p : String)
    (hends : jsEndsWith method ".enable" = true)
    (hex : extractDomain method = Except.ok dom) :
    c.send { id := some n, method := some method, params := p }
      = match ({ c with enabledDomains := enableDomain c.enabledDomains dom } : CRDPChannel).sendUnsentPendingMessages dom with
        | Except.error e =>
          { channel := { c with enabledDomains := enableDomain c.enabledDomains dom },
            wire := [{ id := some (encodifyChannel c.id n), method := some method, params := p }],
            error := some e }
        | Except.ok c2 =>
          { channel := c2,
            wire := [{ id := some (encodifyChannel c.id n), method := some method, params := p }],
            error := none } := by
  unfold CRDPChannel.send
  split
  · next heq => simp at heq
  · next m2 heq =>
    simp at heq
    subst heq
    split
    · rw [hex]
      rfl
    · next hfalse => exact absurd hends hfalse

/-- Claim C4: when a channel with a live pending buffer sends a well-formed
enable message carrying an id for domain D, the send completes without
error; with at least one listener registered, every payload buffered under
D is delivered to the listeners in original arrival order, each exactly
once, and D's queue is gone afterwards while other domains' queues are
untouched; with no listener registered the flush is a no-op. -/
theorem enable_flushes_pending_fifo (c : CRDPChannel) (method dom : String) (n : Nat)
    (msg : Message) (pm : List (String × List Message)) (buf : List Message)
    (hmethod : msg.method = some method) (hmsgid : msg.id = some n)
    (hends : jsEndsWith method ".enable" = true)
    (hsplit : jsSplitOnDot method = [dom, "enable"])
    (hpm : c.pendingMessagesForDomain = some pm)
    (hnd : (pm.map Prod.fst).Nodup)
    (hbuf : assocLookup pm dom = some buf) :
    (c.send msg).error = none ∧
    (c.messageCallbacks ≠ [] →
       (c.send msg).channel.delivered
         = c.delivered ++ (buf.map (fun b => deliverTo c b)).flatten ∧
       ∃ pm2, (c.send msg).channel.pendingMessagesForDomain = some pm2 ∧
         assocLookup pm2 dom = none ∧
         ∀ d2, d2 ≠ dom → assocLookup pm2 d2 = assocLookup pm d2) ∧
    (c.messageCallbacks = [] →
       (c.send msg).channel.delivered = c.delivered ∧
       (c.send msg).channel.pendingMessagesForDomain = some pm) := by
  obtain ⟨i, mth, p⟩ := msg
  have hi : i = some n := hmsgid
  have hm : mth = some method := hmethod
  subst hi
  subst hm
  have hex : extractDomain method = Except.ok dom := by
    unfold extractDomain
    rw [hsplit]
    rfl
  have hcont : (enableDomain c.enabledDomains dom).contains dom = true :=
    enableDomain_contains _ _
  by_cases hcb : c.messageCallbacks = []
  · have hlen : c.messageCallbacks.length = 0 := by
      rw [hcb]
      rfl
    have hsu : ({ c with enabledDomains := enableDomain c.enabledDomains dom } : CRDPChannel).sendUnsentPendingMessages dom = Except.ok { c with enabledDomains := enableDomain c.enabledDomains dom } := by
      unfold CRDPChannel.sendUnsentPendingMessages
      simp only [hpm, hbuf]
      rw [if_pos hlen]
    rw [send_enable_eq c method dom n p hends hex, hsu]
    refine ⟨rfl, ?_, ?_⟩
    · intro hne
      exact absurd hcb hne
    · intro _
      exact ⟨rfl, hpm⟩
  · have hlen : ¬(c.messageCallbacks.length = 0) := by
      intro h0
      exact hcb (List.length_eq_zero.mp h0)
    have hsu : ({ c with enabledDomains := enableDomain c.enabledDomains dom } : CRDPChannel).sendUnsentPendingMessages dom = Except.ok { c with enabledDomains := enableDomain c.enabledDomains dom, pendingMessagesForDomain := some (assocErase pm dom), delivered := c.delivered ++ (buf.map (fun b => deliverTo c b)).flatten } := by
      unfold CRDPChannel.sendUnsentPendingMessages
      simp only [hpm, hbuf]
      rw [if_neg hlen]
      rw [foldl_deliver_enabled buf ({ c with enabledDomains := enableDomain c.enabledDomains dom, pendingMessagesForDomain := some (assocErase pm dom) } : CRDPChannel) dom hcont]
      rfl
    rw [send_enable_eq c method dom n p hends hex, hsu]
    refine ⟨rfl, ?_, ?_⟩
    · intro _
      refine ⟨rfl, assocErase pm dom, rfl, assocLookup_erase_self pm dom hnd, ?_⟩
      intro d2 hd2
      exact assocLookup_erase_ne pm dom d2 hd2
    · intro h0
      exact absurd h0 hcb

def pendMsg1 : Message := { id := none, method := some "Debugger.paused", params := "1" }

def pendMsg2 : Message := { id := none, method := some "Debugger.paused", params := "2" }

def chBufC4 : CRDPChannel :=
  { newChannel "c" 0 with messageCallbacks := [5], pendingMessagesForDomain := some [("Debugger", [pendMsg1, pendMsg2])] }

def enableMsgC4 : Message := { id := some 1, method := some "Debugger.enable", params := "" }

theorem enable_flushes_pending_fifo_witness :
    (chBufC4.send enableMsgC4).error = none ∧
    (chBufC4.send enableMsgC4).channel.delivered
      = chBufC4.delivered ++ (([pendMsg1, pendMsg2].map (fun b => deliverTo chBufC4 b)).flatten) := by
  obtain ⟨h1, h2, _⟩ := enable_flushes_pending_fifo chBufC4 "Debugger.enable" "Debugger" 1
    enableMsgC4 [("Debugger", [pendMsg1, pendMsg2])] [pendMsg1, pendMsg2]
    rfl rfl (by decide) (by decide) rfl (by decide) (by decide)
  obtain ⟨hd, _⟩ := h2 (by decide)
  exact ⟨h1, hd⟩
